import Mathlib

/-!
Verification of the session relay core of the align-ai-moderator signaling
server (`server.js`): the in-memory session store, the `create_session`,
`join_session` and `relay_message` handlers, the close handler and the
periodic expiry sweep.

Connections are modelled by numeric identifiers; the per-connection mutable
fields `ws.sessionId` and `ws.userName` live in a connection-state map, and
`readyState === OPEN` is a boolean predicate on connection identifiers
supplied to each operation. The session store `sessions` (a `Map`) is
modelled as a function from session identifier to `Option Session`.
Each handler returns the updated server state together with the ordered
list of frames it sends, as pairs of target connection and outbound message.
-/

/-- One entry of a session's `participants` array: a display name, a
reference to the participant's current connection (`ws`), and the
creator flag. -/
structure Participant where
  userName : String
  ws : Nat
  isCreator : Bool
deriving Repr, DecidableEq

/-- One session object as stored in the `sessions` map. -/
structure Session where
  sessionId : String
  topic : String
  createdAt : Nat
  participants : List Participant
deriving Repr, DecidableEq

/-- The mutable per-connection fields set by the handlers
(`ws.sessionId` and `ws.userName`, both initially `null`). -/
structure ConnState where
  sessionId : Option String
  userName : Option String
deriving Repr, DecidableEq

/-- Outbound frames sent by the server, one constructor per `type` value. -/
inductive OutMsg where
  | sessionCreated (sessionId topic : String)
  | participantJoined (userName topic : String) (participantCount : Nat)
  | participantLeft (userName : String)
  | messageReceived (messageType content fromUser : String) (timestamp : Nat)
  | messageSent (messageType content : String) (timestamp : Nat)
  | error (message : String)
  | pong
deriving Repr, DecidableEq

/-- Inbound frames after a successful decode, one constructor per
dispatched `type`; `unknown` covers unrecognized type strings. -/
inductive InMsg where
  | createSession (sessionId topic userName : String)
  | joinSession (sessionId userName : String) (topic : Option String)
  | relayMessage (messageType content : String)
  | ping
  | unknown (t : String)
deriving Repr, DecidableEq

/-- The whole mutable server state: the `sessions` map and the
per-connection bound fields. -/
structure ServerState where
  sessions : String → Option Session
  conns : Nat → ConnState

/-- Point update of the `sessions` map (`sessions.set(sid, s)`). -/
def setSession (ss : String → Option Session) (sid : String) (s : Session) :
    String → Option Session :=
  fun k => if k = sid then some s else ss k

/-- Point deletion from the `sessions` map (`sessions.delete(sid)`). -/
def delSession (ss : String → Option Session) (sid : String) :
    String → Option Session :=
  fun k => if k = sid then none else ss k

/-- Point update of a connection's bound fields. -/
def setConn (cs : Nat → ConnState) (wsId : Nat) (v : ConnState) :
    Nat → ConnState :=
  fun c => if c = wsId then v else cs c

/-- Replacement of the first list element satisfying `pred` by its image
under `f`, modelling a JavaScript `find` followed by in-place mutation of
the found object. -/
def updateFirst (pred : α → Bool) (f : α → α) : List α → List α
  | [] => []
  | x :: xs => if pred x then f x :: xs else x :: updateFirst pred f xs

/-- Handler of `create_session` frames (`handleCreateSession` in
`server.js`). `now` is the value of `Date.now()` during the call. -/
def handleCreateSession (st : ServerState) (wsId : Nat)
    (sessionId topic userName : String) (now : Nat) :
    ServerState × List (Nat × OutMsg) :=
  match st.sessions sessionId with
  | some session =>
    if session.participants.any (fun p => p.isCreator && p.userName == userName) then
      let session' := { session with
        participants := updateFirst
          (fun p => p.isCreator && p.userName == userName)
          (fun p => { p with ws := wsId }) session.participants }
      ({ sessions := setSession st.sessions sessionId session',
         conns := setConn st.conns wsId ⟨some sessionId, some userName⟩ },
       [(wsId, OutMsg.sessionCreated sessionId session.topic)])
    else
      (st, [(wsId, OutMsg.error "Session already exists")])
  | none =>
    let session : Session :=
      { sessionId := sessionId, topic := topic, createdAt := now,
        participants := [{ userName := userName, ws := wsId, isCreator := true }] }
    ({ sessions := setSession st.sessions sessionId session,
       conns := setConn st.conns wsId ⟨some sessionId, some userName⟩ },
     [(wsId, OutMsg.sessionCreated sessionId topic)])

/-- Common tail of `handleJoinSession`: store the updated session, rebind
the connection and broadcast `participant_joined` to every participant
whose connection is open. -/
def joinFinish (st : ServerState) (wsId : Nat) (openC : Nat → Bool)
    (sessionId userName : String) (session : Session) :
    ServerState × List (Nat × OutMsg) :=
  ({ sessions := setSession st.sessions sessionId session,
     conns := setConn st.conns wsId ⟨some sessionId, some userName⟩ },
   session.participants.filterMap (fun p =>
     if openC p.ws then
       some (p.ws, OutMsg.participantJoined userName session.topic
         session.participants.length)
     else none))

/-- Body of `handleJoinSession` once the session has been resolved (or
recreated): reconnect by name, reject when full, or append a new
non-creator participant. -/
def joinCore (st : ServerState) (wsId : Nat) (openC : Nat → Bool)
    (sessionId userName : String) (session : Session) :
    ServerState × List (Nat × OutMsg) :=
  if session.participants.any (fun p => p.userName == userName) then
    joinFinish st wsId openC sessionId userName
      { session with
        participants := updateFirst (fun p => p.userName == userName)
          (fun p => { p with ws := wsId }) session.participants }
  else if session.participants.length ≥ 2 then
    (st, [(wsId, OutMsg.error "Session is full")])
  else
    joinFinish st wsId openC sessionId userName
      { session with
        participants := session.participants ++
          [{ userName := userName, ws := wsId, isCreator := false }] }

/-- Handler of `join_session` frames (`handleJoinSession` in `server.js`).
`topic = none` models an absent (or falsy) `topic` field. -/
def handleJoinSession (st : ServerState) (wsId : Nat) (openC : Nat → Bool)
    (sessionId userName : String) (topic : Option String) (now : Nat) :
    ServerState × List (Nat × OutMsg) :=
  match st.sessions sessionId with
  | some session => joinCore st wsId openC sessionId userName session
  | none =>
    match topic with
    | some t =>
      let session : Session :=
        { sessionId := sessionId, topic := t, createdAt := now, participants := [] }
      joinCore { st with sessions := setSession st.sessions sessionId session }
        wsId openC sessionId userName session
    | none => (st, [(wsId, OutMsg.error "Session not found or expired")])

/-- Handler of `relay_message` frames (`handleRelayMessage` in `server.js`).
It never mutates state, so only the sent frames are returned. -/
def handleRelayMessage (st : ServerState) (wsId : Nat) (openC : Nat → Bool)
    (messageType content : String) (now : Nat) : List (Nat × OutMsg) :=
  match st.conns wsId with
  | ⟨some sid, some uname⟩ =>
    match st.sessions sid with
    | some session =>
      session.participants.filterMap (fun p =>
        if p.ws != wsId && openC p.ws then
          some (p.ws, OutMsg.messageReceived messageType content uname now)
        else none)
      ++ [(wsId, OutMsg.messageSent messageType content now)]
    | none => [(wsId, OutMsg.error "Session not found")]
  | _ => [(wsId, OutMsg.error "Not connected to a session")]

/-- Handler of a connection close event (the `ws.on('close')` callback):
remove the participant holding this connection, notify the remaining
participants, and delete the session when it became empty. -/
def handleClose (st : ServerState) (wsId : Nat) (openC : Nat → Bool) :
    ServerState × List (Nat × OutMsg) :=
  match st.conns wsId with
  | ⟨some sid, some uname⟩ =>
    match st.sessions sid with
    | some session =>
      let remaining := session.participants.filter (fun p => p.ws != wsId)
      let sends := remaining.filterMap (fun p =>
        if openC p.ws then some (p.ws, OutMsg.participantLeft uname) else none)
      if remaining.length = 0 then
        ({ st with sessions := delSession st.sessions sid }, sends)
      else
        let session' : Session := { session with participants := remaining }
        ({ st with sessions := setSession st.sessions sid session' }, sends)
    | none => (st, [])
  | _ => (st, [])

/-- Session time-to-live used by the cleanup interval: 4 hours in
milliseconds. -/
def sessionTTL : Nat := 14400000

/-- One run of the session cleanup interval callback: delete every session
strictly older than `sessionTTL`. -/
def sweepSessions (ss : String → Option Session) (now : Nat) :
    String → Option Session :=
  fun k =>
    match ss k with
    | some s => if now - s.createdAt > sessionTTL then none else some s
    | none => none

/-- The `ws.on('message')` callback: `frame = none` models a payload on
which `JSON.parse` threw, answered by the catch block; otherwise the
decoded message is dispatched by its `type`. -/
def handleFrame (st : ServerState) (wsId : Nat) (openC : Nat → Bool)
    (frame : Option InMsg) (now : Nat) : ServerState × List (Nat × OutMsg) :=
  match frame with
  | none => (st, [(wsId, OutMsg.error "Invalid message format")])
  | some (InMsg.createSession sid t u) => handleCreateSession st wsId sid t u now
  | some (InMsg.joinSession sid u t) => handleJoinSession st wsId openC sid u t now
  | some (InMsg.relayMessage mt c) => (st, handleRelayMessage st wsId openC mt c now)
  | some InMsg.ping => (st, [(wsId, OutMsg.pong)])
  | some (InMsg.unknown _) => (st, [])

/-- The state at process start: empty session store, every connection
unbound. -/
def initialState : ServerState :=
  ⟨fun _ => none, fun _ => ⟨none, none⟩⟩

/-- One atomic event of the server: an inbound frame on some connection, a
connection close, a cleanup sweep, or a new connection being accepted. -/
inductive Step : ServerState → ServerState → Prop where
  | frame : ∀ (st : ServerState) (wsId : Nat) (openC : Nat → Bool)
      (fr : Option InMsg) (now : Nat),
      Step st (handleFrame st wsId openC fr now).1
  | close : ∀ (st : ServerState) (wsId : Nat) (openC : Nat → Bool),
      Step st (handleClose st wsId openC).1
  | sweep : ∀ (st : ServerState) (now : Nat),
      Step st { st with sessions := sweepSessions st.sessions now }
  | accept : ∀ (st : ServerState) (wsId : Nat),
      Step st { st with conns := setConn st.conns wsId ⟨none, none⟩ }

/-- States the server can be in, starting from process start. -/
inductive Reachable : ServerState → Prop where
  | init : Reachable initialState
  | step : ∀ {st st' : ServerState}, Reachable st → Step st st' → Reachable st'

/-- Identity content of a participant list: display names and creator
flags, in order. -/
def identities (l : List Participant) : List (String × Bool) :=
  l.map (fun p => (p.userName, p.isCreator))

/-- Absence of any creator-flagged participant in a session. -/
def noCreator (s : Session) : Prop :=
  ∀ p ∈ s.participants, p.isCreator = false

/-- The two-participant capacity invariant over the whole store. -/
def capInv (st : ServerState) : Prop :=
  ∀ sid s, st.sessions sid = some s → s.participants.length ≤ 2

/-- Openness predicate of a world where every connection is open. -/
def allOpen : Nat → Bool := fun _ => true

/-- Fixture: the creator participant of the demo session, on connection 1. -/
def aliceP : Participant := ⟨"Alice", 1, true⟩

/-- Fixture: the second participant of the demo session, on connection 2. -/
def bobP : Participant := ⟨"Bob", 2, false⟩

/-- Fixture: a full two-participant session. -/
def demoSession : Session := ⟨"s1", "T", 0, [aliceP, bobP]⟩

/-- Fixture: a server state holding `demoSession`, with connections 1 and 2
bound to its two participants. -/
def demoState : ServerState :=
  ⟨fun k => if k = "s1" then some demoSession else none,
   fun c =>
     if c = 1 then ⟨some "s1", some "Alice"⟩
     else if c = 2 then ⟨some "s1", some "Bob"⟩
     else ⟨none, none⟩⟩

/-- Fixture: the state reached from process start by one `create_session`
frame from connection 1. -/
def reachState : ServerState :=
  (handleFrame initialState 1 allOpen (some (InMsg.createSession "s1" "T" "Alice")) 0).1

/-- Fixture: a session whose creator participant already reconnected on
connection 3, while connection 1 is still bound to her name. -/
def staleSession : Session := ⟨"s1", "T", 0, [⟨"Alice", 3, true⟩, bobP]⟩

/-- Fixture: a server state holding `staleSession`, with the stale
connection 1 still bound to Alice. -/
def staleState : ServerState :=
  ⟨fun k => if k = "s1" then some staleSession else none,
   fun c =>
     if c = 1 then ⟨some "s1", some "Alice"⟩
     else if c = 2 then ⟨some "s1", some "Bob"⟩
     else if c = 3 then ⟨some "s1", some "Alice"⟩
     else ⟨none, none⟩⟩

/-- Fixture: a session with a single non-creator participant, as produced
by the join-recovery path. -/
def recoveredSession : Session := ⟨"s1", "T", 0, [bobP]⟩

/-- Fixture: a server state holding `recoveredSession`. -/
def recoveredState : ServerState :=
  ⟨fun k => if k = "s1" then some recoveredSession else none,
   fun c => if c = 2 then ⟨some "s1", some "Bob"⟩ else ⟨none, none⟩⟩

/-- Reading back the key just written into the store. -/
theorem setSession_self (ss : String → Option Session) (sid : String) (s : Session) :
    setSession ss sid s sid = some s := by
  simp [setSession]

/-- Reading an unrelated key after a store write. -/
theorem setSession_other (ss : String → Option Session) (sid : String) (s : Session)
    (k : String) (h : k ≠ sid) : setSession ss sid s k = ss k := by
  simp [setSession, h]

/-- Reading back the key just deleted from the store. -/
theorem delSession_self (ss : String → Option Session) (sid : String) :
    delSession ss sid sid = none := by
  simp [delSession]

/-- Reading an unrelated key after a store deletion. -/
theorem delSession_other (ss : String → Option Session) (sid : String)
    (k : String) (h : k ≠ sid) : delSession ss sid k = ss k := by
  simp [delSession, h]

/-- A session read back after a write is the written one or was already
present under that key. -/
theorem setSession_eq_or {ss : String → Option Session} {sid : String} {s : Session}
    {k : String} {s' : Session} (h : setSession ss sid s k = some s') :
    s' = s ∨ ss k = some s' := by
  unfold setSession at h
  by_cases he : k = sid
  · simp [he] at h
    exact Or.inl h.symm
  · simp [he] at h
    exact Or.inr h

/-- A session surviving a deletion was already present under that key. -/
theorem delSession_eq_or {ss : String → Option Session} {sid : String}
    {k : String} {s' : Session} (h : delSession ss sid k = some s') :
    ss k = some s' := by
  unfold delSession at h
  by_cases he : k = sid
  · simp [he] at h
  · simpa [he] using h

/-- A session surviving a sweep was already stored, unchanged. -/
theorem sweepSessions_eq_or {ss : String → Option Session} {now : Nat}
    {k : String} {s' : Session} (h : sweepSessions ss now k = some s') :
    ss k = some s' := by
  unfold sweepSessions at h
  cases hk : ss k with
  | none => rw [hk] at h; simp at h
  | some s =>
    rw [hk] at h
    by_cases ht : now - s.createdAt > sessionTTL
    · simp [ht] at h
    · simp [ht] at h
      exact congrArg some h

/-- Replacing one element in place preserves the list length. -/
theorem updateFirst_length (pred : α → Bool) (f : α → α) (l : List α) :
    (updateFirst pred f l).length = l.length := by
  induction l with
  | nil => rfl
  | cons x xs ih =>
    by_cases h : pred x = true
    · simp [updateFirst, h]
    · simp [updateFirst, h, ih]

/-- Mapping a function invariant under the replacement commutes with the
in-place update. -/
theorem updateFirst_map (pred : α → Bool) (f : α → α) (g : α → β)
    (hg : ∀ x, g (f x) = g x) (l : List α) :
    (updateFirst pred f l).map g = l.map g := by
  induction l with
  | nil => rfl
  | cons x xs ih =>
    by_cases h : pred x = true
    · simp [updateFirst, h, hg]
    · simp [updateFirst, h, ih]

/-- Every element after an in-place update is an original element or the
image of one. -/
theorem mem_updateFirst {pred : α → Bool} {f : α → α} {l : List α} {y : α}
    (hy : y ∈ updateFirst pred f l) : y ∈ l ∨ ∃ x ∈ l, y = f x := by
  induction l with
  | nil => simp [updateFirst] at hy
  | cons x xs ih =>
    by_cases hp : pred x = true
    · rw [updateFirst, if_pos hp] at hy
      rcases List.mem_cons.mp hy with h | h
      · exact Or.inr ⟨x, by simp, h⟩
      · exact Or.inl (List.mem_cons_of_mem _ h)
    · rw [updateFirst, if_neg hp] at hy
      rcases List.mem_cons.mp hy with h | h
      · exact Or.inl (by simp [h])
      · rcases ih h with h2 | ⟨z, hz, hz2⟩
        · exact Or.inl (List.mem_cons_of_mem _ h2)
        · exact Or.inr ⟨z, List.mem_cons_of_mem _ hz, hz2⟩

/-- When some element satisfies the predicate, the image of the first such
element occurs in the updated list. -/
theorem updateFirst_exists {pred : α → Bool} (f : α → α) {l : List α}
    (h : l.any pred = true) :
    ∃ x ∈ l, pred x = true ∧ f x ∈ updateFirst pred f l := by
  induction l with
  | nil => simp at h
  | cons x xs ih =>
    by_cases hp : pred x = true
    · exact ⟨x, by simp, hp, by simp [updateFirst, hp]⟩
    · simp only [List.any_cons, hp, Bool.false_or] at h
      rcases ih h with ⟨z, hz, hzp, hzm⟩
      exact ⟨z, List.mem_cons_of_mem _ hz, hzp, by simp [updateFirst, hp, hzm]⟩

/-- Capacity is preserved by `handleCreateSession`. -/
theorem capInv_create (st : ServerState) (wsId : Nat) (sid t u : String) (now : Nat)
    (h : capInv st) : capInv (handleCreateSession st wsId sid t u now).1 := by
  unfold handleCreateSession
  cases hm : st.sessions sid with
  | some session =>
    by_cases hc : session.participants.any (fun p => p.isCreator && p.userName == u) = true
    · simp only [hc, if_pos]
      intro k s hk
      rcases setSession_eq_or hk with he | he
      · subst he
        simpa [updateFirst_length] using h sid session hm
      · exact h k s he
    · simp only [Bool.not_eq_true] at hc
      simp only [hc]
      exact h
  | none =>
    intro k s hk
    rcases setSession_eq_or hk with he | he
    · subst he; simp
    · exact h k s he

/-- Capacity is preserved by the join body, given the resolved session
already satisfies it. -/
theorem capInv_joinCore (st : ServerState) (wsId : Nat) (openC : Nat → Bool)
    (sid u : String) (session : Session)
    (h : capInv st) (hlen : session.participants.length ≤ 2) :
    capInv (joinCore st wsId openC sid u session).1 := by
  unfold joinCore joinFinish
  by_cases ha : session.participants.any (fun p => p.userName == u) = true
  · simp only [ha, if_pos]
    intro k s hk
    rcases setSession_eq_or hk with he | he
    · subst he
      simpa [updateFirst_length] using hlen
    · exact h k s he
  · simp only [Bool.not_eq_true] at ha
    simp only [ha]
    by_cases hl : session.participants.length ≥ 2
    · simp only [hl, if_pos]
      exact h
    · simp only [hl, if_neg, Bool.false_eq_true, not_false_eq_true]
      intro k s hk
      rcases setSession_eq_or hk with he | he
      · subst he
        simp only [List.length_append, List.length_cons, List.length_nil]
        omega
      · exact h k s he

/-- Capacity is preserved by `handleJoinSession`. -/
theorem capInv_join (st : ServerState) (wsId : Nat) (openC : Nat → Bool)
    (sid u : String) (topic : Option String) (now : Nat)
    (h : capInv st) : capInv (handleJoinSession st wsId openC sid u topic now).1 := by
  unfold handleJoinSession
  cases hm : st.sessions sid with
  | some session => exact capInv_joinCore _ _ _ _ _ _ h (h sid session hm)
  | none =>
    cases topic with
    | some t =>
      apply capInv_joinCore
      · intro k s hk
        rcases setSession_eq_or hk with he | he
        · subst he; simp
        · exact h k s he
      · simp
    | none => exact h

/-- Capacity is preserved by the close handler. -/
theorem capInv_close (st : ServerState) (wsId : Nat) (openC : Nat → Bool)
    (h : capInv st) : capInv (handleClose st wsId openC).1 := by
  cases hcw : st.conns wsId with
  | mk osid ouname =>
    cases osid with
    | none => simp only [handleClose, hcw]; exact h
    | some sid =>
      cases ouname with
      | none => simp only [handleClose, hcw]; exact h
      | some uname =>
        cases hm : st.sessions sid with
        | none => simp only [handleClose, hcw, hm]; exact h
        | some session =>
          by_cases hr : (session.participants.filter (fun p => p.ws != wsId)).length = 0
          · simp only [handleClose, hcw, hm, hr, if_pos]
            intro k s hk
            exact h k s (delSession_eq_or hk)
          · simp only [handleClose, hcw, hm, hr, if_neg, not_false_eq_true]
            intro k s hk
            rcases setSession_eq_or hk with he | he
            · subst he
              exact le_trans (List.length_filter_le _ _) (h sid session hm)
            · exact h k s he

/-- Capacity is preserved by one inbound frame. -/
theorem capInv_frame (st : ServerState) (wsId : Nat) (openC : Nat → Bool)
    (fr : Option InMsg) (now : Nat)
    (h : capInv st) : capInv (handleFrame st wsId openC fr now).1 := by
  cases fr with
  | none => exact h
  | some m =>
    cases m with
    | createSession sid t u => exact capInv_create st wsId sid t u now h
    | joinSession sid u t => exact capInv_join st wsId openC sid u t now h
    | relayMessage mt c => exact h
    | ping => exact h
    | unknown t => exact h

/-- Capacity is preserved by every atomic server event. -/
theorem capInv_step {st st' : ServerState} (hs : Step st st') (h : capInv st) :
    capInv st' := by
  cases hs with
  | frame wsId openC fr now => exact capInv_frame st wsId openC fr now h
  | close wsId openC => exact capInv_close st wsId openC h
  | sweep now =>
    intro k s hk
    exact h k s (sweepSessions_eq_or hk)
  | accept wsId => exact h

/-- Capacity holds in every reachable state. -/
theorem capInv_reachable {st : ServerState} (h : Reachable st) : capInv st := by
  induction h with
  | init =>
    intro k s hk
    simp [initialState] at hk
  | step _ hs ih => exact capInv_step hs ih

/-- The state after one successful `create_session` is reachable. -/
theorem reachable_reachState : Reachable reachState :=
  Reachable.step Reachable.init
    (Step.frame initialState 1 allOpen (some (InMsg.createSession "s1" "T" "Alice")) 0)

/-- Claim C1: in every reachable server state every stored session has at
most two participants, and a `join_session` under a display name not
present in a session that already has at least two participants is
answered with the error frame `Session is full` and leaves the whole
state unchanged, so the joiner is never added. -/
theorem capacity_invariant :
    (∀ st : ServerState, Reachable st →
      ∀ sid s, st.sessions sid = some s → s.participants.length ≤ 2) ∧
    (∀ (st : ServerState) (wsId : Nat) (openC : Nat → Bool)
      (sid uname : String) (topic : Option String) (now : Nat) (s : Session),
      st.sessions sid = some s →
      2 ≤ s.participants.length →
      (∀ p ∈ s.participants, p.userName ≠ uname) →
      handleJoinSession st wsId openC sid uname topic now =
        (st, [(wsId, OutMsg.error "Session is full")])) := by
  constructor
  · intro st hr
    exact capInv_reachable hr
  · intro st wsId openC sid uname topic now s hm h2 hn
    have ha : s.participants.any (fun p => p.userName == uname) = false := by
      rw [List.any_eq_false]
      intro p hp
      simpa using hn p hp
    have hge : s.participants.length ≥ 2 := h2
    simp only [handleJoinSession, hm, joinCore, ha, Bool.false_eq_true, if_neg,
      not_false_eq_true, if_pos hge]

/-- Witness for the capacity claim at concrete inputs: the session created
by scenario A in a reachable state, and a third identity rejected on the
full demo session. -/
theorem capacity_invariant_witness :
    (⟨"s1", "T", 0, [aliceP]⟩ : Session).participants.length ≤ 2 ∧
    handleJoinSession demoState 5 allOpen "s1" "Carl" none 9 =
      (demoState, [(5, OutMsg.error "Session is full")]) := by
  constructor
  · exact capacity_invariant.1 reachState reachable_reachState "s1"
      ⟨"s1", "T", 0, [aliceP]⟩ rfl
  · exact capacity_invariant.2 demoState 5 allOpen "s1" "Carl" none 9 demoSession
      rfl (by decide) (by decide)

/-- Claim C7: a sweep at time `now` deletes every stored session strictly
older than the TTL, regardless of its participant list, and returns every
session at or below the TTL unchanged. -/
theorem sweep_expiry (ss : String → Option Session) (now : Nat) (sid : String)
    (s : Session) (h : ss sid = some s) :
    (sessionTTL < now - s.createdAt → sweepSessions ss now sid = none) ∧
    (now - s.createdAt ≤ sessionTTL → sweepSessions ss now sid = some s) := by
  constructor
  · intro ht
    simp only [sweepSessions, h]
    rw [if_pos ht]
  · intro ht
    simp only [sweepSessions, h]
    rw [if_neg (by omega)]

/-- Witness for the sweep claim: the full demo session is deleted one
millisecond past the TTL and survives an earlier sweep untouched. -/
theorem sweep_expiry_witness :
    sweepSessions demoState.sessions 14400001 "s1" = none ∧
    sweepSessions demoState.sessions 600000 "s1" = some demoSession := by
  constructor
  · exact (sweep_expiry demoState.sessions 14400001 "s1" demoSession rfl).1 (by decide)
  · exact (sweep_expiry demoState.sessions 600000 "s1" demoSession rfl).2 (by decide)

/-- Claim C8: a frame whose payload fails to decode is answered with the
`Invalid message format` error sent to the sending connection only, while
the session store and every connection's bound fields stay unchanged. -/
theorem malformed_frame (st : ServerState) (wsId : Nat) (openC : Nat → Bool)
    (now : Nat) :
    (handleFrame st wsId openC none now).1 = st ∧
    (handleFrame st wsId openC none now).2 =
      [(wsId, OutMsg.error "Invalid message format")] :=
  ⟨rfl, rfl⟩

/-- Claim C2: a relayed message on a bound connection whose session exists
is forwarded as `message_received` to every participant other than the
sender whose connection is open, is never delivered to the sender's own
connection, and the `message_sent` acknowledgment is sent to the sender
exactly once, whether or not any peer was reachable. -/
theorem relay_exclusion (st : ServerState) (wsId : Nat) (openC : Nat → Bool)
    (mt content : String) (now : Nat) (sid uname : String) (session : Session)
    (hc : st.conns wsId = ⟨some sid, some uname⟩)
    (hs : st.sessions sid = some session) :
    (∀ p ∈ session.participants, p.ws ≠ wsId → openC p.ws = true →
      (p.ws, OutMsg.messageReceived mt content uname now) ∈
        handleRelayMessage st wsId openC mt content now) ∧
    (∀ (mt' c' f' : String) (t' : Nat),
      (wsId, OutMsg.messageReceived mt' c' f' t') ∉
        handleRelayMessage st wsId openC mt content now) ∧
    List.count (wsId, OutMsg.messageSent mt content now)
      (handleRelayMessage st wsId openC mt content now) = 1 := by
  have hrew : handleRelayMessage st wsId openC mt content now =
      session.participants.filterMap (fun p =>
        if p.ws != wsId && openC p.ws then
          some (p.ws, OutMsg.messageReceived mt content uname now)
        else none)
      ++ [(wsId, OutMsg.messageSent mt content now)] := by
    simp only [handleRelayMessage, hc, hs]
  rw [hrew]
  refine ⟨?_, ?_, ?_⟩
  · intro p hp hne hop
    apply List.mem_append_left
    rw [List.mem_filterMap]
    refine ⟨p, hp, ?_⟩
    rw [if_pos]
    simp [hne, hop]
  · intro mt' c' f' t' hmem
    rcases List.mem_append.mp hmem with hin | hin
    · rcases List.mem_filterMap.mp hin with ⟨p, hp, hsome⟩
      by_cases hcnd : (p.ws != wsId && openC p.ws) = true
      · rw [if_pos hcnd] at hsome
        have h1 : p.ws = wsId := congrArg (fun q => q.1) (Option.some.inj hsome)
        simp [h1] at hcnd
      · rw [if_neg hcnd] at hsome
        exact Option.noConfusion hsome
    · simp at hin
  · rw [List.count_append]
    have h0 : List.count (wsId, OutMsg.messageSent mt content now)
        (session.participants.filterMap (fun p =>
          if p.ws != wsId && openC p.ws then
            some (p.ws, OutMsg.messageReceived mt content uname now)
          else none)) = 0 := by
      rw [List.count_eq_zero]
      intro hmem
      rcases List.mem_filterMap.mp hmem with ⟨p, hp, hsome⟩
      by_cases hcnd : (p.ws != wsId && openC p.ws) = true
      · rw [if_pos hcnd] at hsome
        simp at hsome
      · rw [if_neg hcnd] at hsome
        exact Option.noConfusion hsome
    rw [h0]
    simp

/-- Witness for the relay claim on the demo state: connection 1 relays,
connection 2 receives, connection 1 never receives, and the ack count to
the sender is one. -/
theorem relay_exclusion_witness :
    ((2, OutMsg.messageReceived "x" "c" "Alice" 7) ∈
      handleRelayMessage demoState 1 allOpen "x" "c" 7) ∧
    ((1, OutMsg.messageReceived "x" "c" "Alice" 7) ∉
      handleRelayMessage demoState 1 allOpen "x" "c" 7) ∧
    List.count (1, OutMsg.messageSent "x" "c" 7)
      (handleRelayMessage demoState 1 allOpen "x" "c" 7) = 1 := by
  have h := relay_exclusion demoState 1 allOpen "x" "c" 7 "s1" "Alice" demoSession
    rfl rfl
  exact ⟨h.1 bobP (by decide) (by decide) (by decide), h.2.1 "x" "c" "Alice" 7, h.2.2⟩

/-- Claim C4: `create_session` on an existing session replies
`session_created` carrying the stored topic when the caller matches the
creator identity, discarding the supplied topic; otherwise it replies
`Session already exists` and leaves the whole state unchanged. -/
theorem create_on_existing :
    (∀ (st : ServerState) (wsId : Nat) (sid t uname : String) (now : Nat)
      (session : Session),
      st.sessions sid = some session →
      session.participants.any (fun p => p.isCreator && p.userName == uname) = true →
      (handleCreateSession st wsId sid t uname now).2 =
        [(wsId, OutMsg.sessionCreated sid session.topic)]) ∧
    (∀ (st : ServerState) (wsId : Nat) (sid t uname : String) (now : Nat)
      (session : Session),
      st.sessions sid = some session →
      session.participants.any (fun p => p.isCreator && p.userName == uname) = false →
      handleCreateSession st wsId sid t uname now =
        (st, [(wsId, OutMsg.error "Session already exists")])) := by
  constructor
  · intro st wsId sid t uname now session hm hc
    simp only [handleCreateSession, hm, hc, if_true]
  · intro st wsId sid t uname now session hm hc
    simp only [handleCreateSession, hm, hc, Bool.false_eq_true, if_neg,
      not_false_eq_true]

/-- Witness for the create-on-existing claim: the creator reconnects with a
different topic and gets the stored one back; a non-creator identity is
rejected. -/
theorem create_on_existing_witness :
    (handleCreateSession demoState 9 "s1" "IGNORED" "Alice" 99).2 =
      [(9, OutMsg.sessionCreated "s1" "T")] ∧
    handleCreateSession demoState 9 "s1" "T2" "Bob" 99 =
      (demoState, [(9, OutMsg.error "Session already exists")]) := by
  constructor
  · exact create_on_existing.1 demoState 9 "s1" "IGNORED" "Alice" 99 demoSession
      rfl (by decide)
  · exact create_on_existing.2 demoState 9 "s1" "T2" "Bob" 99 demoSession
      rfl (by decide)

/-- Claim C3: a `create_session` matching the stored creator identity and a
`join_session` matching an existing display name both replace that
participant's connection reference in place: the ordered identity list
(display name and creator flag) is unchanged, so the participant count
never grows, and the matched participant now references the caller's
connection. -/
theorem reconnect_in_place :
    (∀ (st : ServerState) (wsId : Nat) (sid t uname : String) (now : Nat)
      (session : Session),
      st.sessions sid = some session →
      session.participants.any (fun p => p.isCreator && p.userName == uname) = true →
      ∃ session',
        (handleCreateSession st wsId sid t uname now).1.sessions sid = some session' ∧
        identities session'.participants = identities session.participants ∧
        ∃ p ∈ session'.participants,
          p.userName = uname ∧ p.isCreator = true ∧ p.ws = wsId) ∧
    (∀ (st : ServerState) (wsId : Nat) (openC : Nat → Bool)
      (sid uname : String) (topic : Option String) (now : Nat) (session : Session),
      st.sessions sid = some session →
      session.participants.any (fun p => p.userName == uname) = true →
      ∃ session',
        (handleJoinSession st wsId openC sid uname topic now).1.sessions sid =
          some session' ∧
        identities session'.participants = identities session.participants ∧
        ∃ p ∈ session'.participants, p.userName = uname ∧ p.ws = wsId) := by
  constructor
  · intro st wsId sid t uname now session hm hc
    refine ⟨{ session with
      participants := updateFirst (fun p => p.isCreator && p.userName == uname)
        (fun p => { p with ws := wsId }) session.participants }, ?_, ?_, ?_⟩
    · simp only [handleCreateSession, hm, hc, if_true]
      exact setSession_self _ _ _
    · unfold identities
      dsimp only
      exact updateFirst_map (fun p => p.isCreator && p.userName == uname)
        (fun p => { p with ws := wsId }) (fun p => (p.userName, p.isCreator))
        (fun x => rfl) session.participants
    · rcases updateFirst_exists (fun p => { p with ws := wsId }) hc with
        ⟨x, hx, hxp, hxm⟩
      have hxx : x.isCreator = true ∧ x.userName = uname := by
        simpa using hxp
      exact ⟨{ x with ws := wsId }, hxm, hxx.2, hxx.1, rfl⟩
  · intro st wsId openC sid uname topic now session hm hj
    refine ⟨{ session with
      participants := updateFirst (fun p => p.userName == uname)
        (fun p => { p with ws := wsId }) session.participants }, ?_, ?_, ?_⟩
    · simp only [handleJoinSession, hm, joinCore, hj, if_true, joinFinish]
      exact setSession_self _ _ _
    · unfold identities
      dsimp only
      exact updateFirst_map (fun p => p.userName == uname)
        (fun p => { p with ws := wsId }) (fun p => (p.userName, p.isCreator))
        (fun x => rfl) session.participants
    · rcases updateFirst_exists (fun p => { p with ws := wsId }) hj with
        ⟨x, hx, hxp, hxm⟩
      have hxx : x.userName = uname := by
        simpa using hxp
      exact ⟨{ x with ws := wsId }, hxm, hxx, rfl⟩

/-- Witness for the reconnect claim: both reconnect paths exercised on the
demo state from a new connection 9. -/
theorem reconnect_in_place_witness :
    (∃ session',
      (handleCreateSession demoState 9 "s1" "X" "Alice" 99).1.sessions "s1" =
        some session' ∧
      identities session'.participants = identities demoSession.participants ∧
      ∃ p ∈ session'.participants,
        p.userName = "Alice" ∧ p.isCreator = true ∧ p.ws = 9) ∧
    (∃ session',
      (handleJoinSession demoState 9 allOpen "s1" "Bob" none 99).1.sessions "s1" =
        some session' ∧
      identities session'.participants = identities demoSession.participants ∧
      ∃ p ∈ session'.participants, p.userName = "Bob" ∧ p.ws = 9) :=
  ⟨reconnect_in_place.1 demoState 9 "s1" "X" "Alice" 99 demoSession rfl (by decide),
   reconnect_in_place.2 demoState 9 allOpen "s1" "Bob" none 99 demoSession rfl
     (by decide)⟩

/-- Claim C5: a `join_session` naming an absent session id with a topic
recreates the session with `createdAt = now` and no prior participants,
then adds the joiner as its only non-creator participant and broadcasts
`participant_joined`; without a topic it replies
`Session not found or expired` and creates nothing. -/
theorem join_recovery :
    (∀ (st : ServerState) (wsId : Nat) (openC : Nat → Bool)
      (sid uname t : String) (now : Nat),
      st.sessions sid = none →
      openC wsId = true →
      ∃ session',
        (handleJoinSession st wsId openC sid uname (some t) now).1.sessions sid =
          some session' ∧
        session'.createdAt = now ∧ session'.topic = t ∧
        session'.participants = [⟨uname, wsId, false⟩] ∧
        (handleJoinSession st wsId openC sid uname (some t) now).2 =
          [(wsId, OutMsg.participantJoined uname t 1)]) ∧
    (∀ (st : ServerState) (wsId : Nat) (openC : Nat → Bool)
      (sid uname : String) (now : Nat),
      st.sessions sid = none →
      handleJoinSession st wsId openC sid uname none now =
        (st, [(wsId, OutMsg.error "Session not found or expired")])) := by
  constructor
  · intro st wsId openC sid uname t now hm hop
    refine ⟨⟨sid, t, now, [⟨uname, wsId, false⟩]⟩, ?_, rfl, rfl, rfl, ?_⟩
    · simp [handleJoinSession, hm, joinCore, joinFinish, setSession_self]
    · simp [handleJoinSession, hm, joinCore, joinFinish, hop]
  · intro st wsId openC sid uname now hm
    simp only [handleJoinSession, hm]

/-- Witness for the recovery claim: scenario F on the initial state. -/
theorem join_recovery_witness :
    (∃ session',
      (handleJoinSession initialState 4 allOpen "z" "Zoe" (some "Q") 11).1.sessions
        "z" = some session' ∧
      session'.createdAt = 11 ∧ session'.topic = "Q" ∧
      session'.participants = [⟨"Zoe", 4, false⟩] ∧
      (handleJoinSession initialState 4 allOpen "z" "Zoe" (some "Q") 11).2 =
        [(4, OutMsg.participantJoined "Zoe" "Q" 1)]) ∧
    handleJoinSession initialState 4 allOpen "z" "Zoe" none 11 =
      (initialState, [(4, OutMsg.error "Session not found or expired")]) :=
  ⟨join_recovery.1 initialState 4 allOpen "z" "Zoe" "Q" 11 rfl rfl,
   join_recovery.2 initialState 4 allOpen "z" "Zoe" 11 rfl⟩

/-- Claim C6: when a bound connection closes, exactly the participants
referencing that connection are removed (matched by connection identity,
not name), every remaining participant with an open connection is sent
`participant_left`, and the session is deleted from the store precisely
when no participant remains, being retained otherwise. -/
theorem close_cleanup (st : ServerState) (wsId : Nat) (openC : Nat → Bool)
    (sid uname : String) (session : Session)
    (hc : st.conns wsId = ⟨some sid, some uname⟩)
    (hs : st.sessions sid = some session) :
    ((∀ p ∈ session.participants, p.ws = wsId) →
      (handleClose st wsId openC).1.sessions sid = none) ∧
    (∀ q ∈ session.participants, q.ws ≠ wsId →
      ∃ session', (handleClose st wsId openC).1.sessions sid = some session' ∧
        (∀ p ∈ session'.participants, p.ws ≠ wsId) ∧
        (∀ p ∈ session.participants, p.ws ≠ wsId → p ∈ session'.participants)) ∧
    (∀ p ∈ session.participants, p.ws ≠ wsId → openC p.ws = true →
      (p.ws, OutMsg.participantLeft uname) ∈ (handleClose st wsId openC).2) := by
  by_cases hr : (session.participants.filter (fun p => p.ws != wsId)).length = 0
  · have hrew1 : (handleClose st wsId openC).1.sessions = delSession st.sessions sid := by
      simp only [handleClose, hc, hs, hr, if_pos]
    have hempty : ∀ q ∈ session.participants, ¬q.ws ≠ wsId := by
      intro q hq hqne
      have hqmem : q ∈ session.participants.filter (fun p => p.ws != wsId) :=
        List.mem_filter.mpr ⟨hq, by simpa using hqne⟩
      rw [List.length_eq_zero.mp hr] at hqmem
      exact absurd hqmem (List.not_mem_nil q)
    refine ⟨?_, ?_, ?_⟩
    · intro _
      rw [hrew1]
      exact delSession_self _ _
    · intro q hq hqne
      exact absurd hqne (hempty q hq)
    · intro p hp hpne _
      exact absurd hpne (hempty p hp)
  · have hrew1 : (handleClose st wsId openC).1.sessions =
        setSession st.sessions sid
          { session with
            participants := session.participants.filter (fun p => p.ws != wsId) } := by
      simp only [handleClose, hc, hs, hr, if_neg, not_false_eq_true]
    have hrew2 : (handleClose st wsId openC).2 =
        (session.participants.filter (fun p => p.ws != wsId)).filterMap (fun p =>
          if openC p.ws then some (p.ws, OutMsg.participantLeft uname) else none) := by
      simp only [handleClose, hc, hs, hr, if_neg, not_false_eq_true]
    refine ⟨?_, ?_, ?_⟩
    · intro hall
      exfalso
      apply hr
      have hnil : session.participants.filter (fun p => p.ws != wsId) = [] := by
        rw [List.filter_eq_nil_iff]
        intro q hq
        simp [hall q hq]
      rw [hnil]
      rfl
    · intro q hq hqne
      refine ⟨{ session with
          participants := session.participants.filter (fun p => p.ws != wsId) },
        ?_, ?_, ?_⟩
      · rw [hrew1]
        exact setSession_self _ _ _
      · intro p hp
        have hmem := List.of_mem_filter hp
        simpa using hmem
      · intro p hp hpne
        exact List.mem_filter.mpr ⟨hp, by simpa using hpne⟩
    · intro p hp hpne hpo
      rw [hrew2]
      apply List.mem_filterMap.mpr
      refine ⟨p, List.mem_filter.mpr ⟨hp, by simpa using hpne⟩, ?_⟩
      rw [if_pos hpo]

/-- Witness for the close claim: closing connection 1 of the demo state
keeps Bob and notifies him that Alice left. -/
theorem close_cleanup_witness :
    (∃ session',
      (handleClose demoState 1 allOpen).1.sessions "s1" = some session' ∧
      (∀ p ∈ session'.participants, p.ws ≠ 1) ∧
      (∀ p ∈ demoSession.participants, p.ws ≠ 1 → p ∈ session'.participants)) ∧
    ((2, OutMsg.participantLeft "Alice") ∈ (handleClose demoState 1 allOpen).2) := by
  have h := close_cleanup demoState 1 allOpen "s1" "Alice" demoSession rfl rfl
  exact ⟨h.2.1 bobP (by decide) (by decide),
         h.2.2 bobP (by decide) (by decide) (by decide)⟩

/-- Claim C9: when a bound connection closes while no participant of its
session references that connection any more (the user already reconnected
on a fresh connection), the close handler still broadcasts
`participant_left` with that user's name to every open participant, even
though the participant list is unchanged and the user is still present. -/
theorem stale_close_broadcast (st : ServerState) (wsId : Nat) (openC : Nat → Bool)
    (sid uname : String) (session : Session)
    (hc : st.conns wsId = ⟨some sid, some uname⟩)
    (hs : st.sessions sid = some session)
    (hstale : ∀ p ∈ session.participants, p.ws ≠ wsId)
    (hre : ∃ p ∈ session.participants, p.userName = uname) :
    (handleClose st wsId openC).1.sessions sid = some session ∧
    (∀ p ∈ session.participants, openC p.ws = true →
      (p.ws, OutMsg.participantLeft uname) ∈ (handleClose st wsId openC).2) := by
  have hfilter : session.participants.filter (fun p => p.ws != wsId) =
      session.participants := by
    rw [List.filter_eq_self]
    intro p hp
    simpa using hstale p hp
  have hne : ¬(session.participants.filter (fun p => p.ws != wsId)).length = 0 := by
    rw [hfilter]
    rcases hre with ⟨p, hp, _⟩
    intro h0
    rw [List.length_eq_zero.mp h0] at hp
    exact absurd hp (List.not_mem_nil p)
  have hrew1 : (handleClose st wsId openC).1.sessions =
      setSession st.sessions sid
        { session with
          participants := session.participants.filter (fun p => p.ws != wsId) } := by
    simp only [handleClose, hc, hs, hne, if_neg, not_false_eq_true]
  have hrew2 : (handleClose st wsId openC).2 =
      (session.participants.filter (fun p => p.ws != wsId)).filterMap (fun p =>
        if openC p.ws then some (p.ws, OutMsg.participantLeft uname) else none) := by
    simp only [handleClose, hc, hs, hne, if_neg, not_false_eq_true]
  constructor
  · rw [hrew1, hfilter]
    exact setSession_self _ _ _
  · intro p hp hpo
    rw [hrew2, hfilter]
    apply List.mem_filterMap.mpr
    refine ⟨p, hp, ?_⟩
    rw [if_pos hpo]

/-- Witness for the stale-close claim: connection 1 closes after Alice
already reconnected on connection 3; the session is unchanged and both
participants, Alice included, are told that Alice left. -/
theorem stale_close_broadcast_witness :
    (handleClose staleState 1 allOpen).1.sessions "s1" = some staleSession ∧
    ((3, OutMsg.participantLeft "Alice") ∈ (handleClose staleState 1 allOpen).2) := by
  have h := stale_close_broadcast staleState 1 allOpen "s1" "Alice" staleSession
    rfl rfl (by decide) ⟨⟨"Alice", 3, true⟩, by decide, rfl⟩
  exact ⟨h.1, h.2 ⟨"Alice", 3, true⟩ (by decide) (by decide)⟩

/-- Updating only the connection reference of one participant preserves the
absence of creator flags. -/
theorem noCreator_updateFirst {l : List Participant} {pred : Participant → Bool}
    {w : Nat} (h : ∀ p ∈ l, p.isCreator = false) :
    ∀ p ∈ updateFirst pred (fun q => { q with ws := w }) l, p.isCreator = false := by
  intro p hp
  rcases mem_updateFirst hp with hin | ⟨x, hx, he⟩
  · exact h p hin
  · rw [he]
    exact h x hx

/-- `handleCreateSession` keeps a creator-free session creator-free at
every key. -/
theorem noCreator_create {st : ServerState} {wsId : Nat} {sid' t u : String}
    {now : Nat} {k : String} {session : Session}
    (hm : st.sessions k = some session) (hnc : noCreator session) :
    ∃ session', (handleCreateSession st wsId sid' t u now).1.sessions k =
      some session' ∧ noCreator session' := by
  unfold handleCreateSession
  cases hm' : st.sessions sid' with
  | some r =>
    by_cases hcr : r.participants.any (fun p => p.isCreator && p.userName == u) = true
    · simp only [hcr, if_true]
      by_cases he : k = sid'
      · subst he
        have hrs : r = session := by
          rw [hm'] at hm
          exact Option.some.inj hm
        subst hrs
        refine ⟨_, setSession_self _ _ _, ?_⟩
        intro p hp
        exact noCreator_updateFirst hnc p hp
      · rw [setSession_other _ _ _ _ he]
        exact ⟨session, hm, hnc⟩
    · simp only [hcr, Bool.false_eq_true, if_neg, not_false_eq_true]
      exact ⟨session, hm, hnc⟩
  | none =>
    dsimp only
    have he : k ≠ sid' := by
      intro h
      subst h
      rw [hm'] at hm
      exact Option.noConfusion hm
    rw [setSession_other _ _ _ _ he]
    exact ⟨session, hm, hnc⟩

/-- The join body keeps a creator-free session creator-free at every key,
as long as the resolved session agrees with the stored one on its own
key. -/
theorem noCreator_joinCore {st : ServerState} {wsId : Nat} {openC : Nat → Bool}
    {sid u : String} {r session : Session} {k : String}
    (hm : st.sessions k = some session) (hnc : noCreator session)
    (hr : k = sid → r = session) :
    ∃ session', (joinCore st wsId openC sid u r).1.sessions k = some session' ∧
      noCreator session' := by
  unfold joinCore joinFinish
  by_cases ha : r.participants.any (fun p => p.userName == u) = true
  · simp only [ha, if_true]
    by_cases he : k = sid
    · subst he
      have hrr := hr rfl
      subst hrr
      refine ⟨_, setSession_self _ _ _, ?_⟩
      intro p hp
      exact noCreator_updateFirst hnc p hp
    · rw [setSession_other _ _ _ _ he]
      exact ⟨session, hm, hnc⟩
  · simp only [ha, Bool.false_eq_true, if_neg, not_false_eq_true]
    by_cases hl : r.participants.length ≥ 2
    · simp only [hl, if_true]
      exact ⟨session, hm, hnc⟩
    · simp only [hl, if_neg, not_false_eq_true]
      by_cases he : k = sid
      · subst he
        have hrr := hr rfl
        subst hrr
        refine ⟨_, setSession_self _ _ _, ?_⟩
        intro p hp
        rcases List.mem_append.mp hp with hin | hin
        · exact hnc p hin
        · rw [List.mem_singleton.mp hin]
      · rw [setSession_other _ _ _ _ he]
        exact ⟨session, hm, hnc⟩

/-- `handleJoinSession` keeps a creator-free session creator-free at every
key. -/
theorem noCreator_join {st : ServerState} {wsId : Nat} {openC : Nat → Bool}
    {sid' u : String} {topic : Option String} {now : Nat} {k : String}
    {session : Session}
    (hm : st.sessions k = some session) (hnc : noCreator session) :
    ∃ session', (handleJoinSession st wsId openC sid' u topic now).1.sessions k =
      some session' ∧ noCreator session' := by
  unfold handleJoinSession
  cases hm' : st.sessions sid' with
  | some r =>
    apply noCreator_joinCore hm hnc
    intro he
    subst he
    rw [hm'] at hm
    exact Option.some.inj hm
  | none =>
    cases topic with
    | some t =>
      have hne : k ≠ sid' := by
        intro h
        subst h
        rw [hm'] at hm
        exact Option.noConfusion hm
      apply noCreator_joinCore ?_ hnc ?_
      · show setSession st.sessions sid' _ k = some session
        rw [setSession_other _ _ _ _ hne]
        exact hm
      · intro he
        exact absurd he hne
    | none => exact ⟨session, hm, hnc⟩

/-- The close handler keeps a creator-free session creator-free at every
key, or deletes it. -/
theorem noCreator_close {st : ServerState} {wsId : Nat} {openC : Nat → Bool}
    {k : String} {session : Session}
    (hm : st.sessions k = some session) (hnc : noCreator session) :
    (handleClose st wsId openC).1.sessions k = none ∨
    ∃ session', (handleClose st wsId openC).1.sessions k = some session' ∧
      noCreator session' := by
  cases hcw : st.conns wsId with
  | mk osid ouname =>
    cases osid with
    | none =>
      right
      simp only [handleClose, hcw]
      exact ⟨session, hm, hnc⟩
    | some sid =>
      cases ouname with
      | none =>
        right
        simp only [handleClose, hcw]
        exact ⟨session, hm, hnc⟩
      | some uname =>
        cases hms : st.sessions sid with
        | none =>
          right
          simp only [handleClose, hcw, hms]
          exact ⟨session, hm, hnc⟩
        | some s2 =>
          by_cases hlen : (s2.participants.filter (fun p => p.ws != wsId)).length = 0
          · simp only [handleClose, hcw, hms, hlen, if_pos]
            by_cases he : k = sid
            · subst he
              left
              exact delSession_self _ _
            · right
              rw [delSession_other _ _ _ he]
              exact ⟨session, hm, hnc⟩
          · simp only [handleClose, hcw, hms, hlen, if_neg, not_false_eq_true]
            right
            by_cases he : k = sid
            · subst he
              have hs2 : s2 = session := by
                rw [hms] at hm
                exact Option.some.inj hm
              subst hs2
              refine ⟨_, setSession_self _ _ _, ?_⟩
              intro p hp
              exact hnc p (List.mem_of_mem_filter hp)
            · rw [setSession_other _ _ _ _ he]
              exact ⟨session, hm, hnc⟩

/-- Claim C10: a session created through the join-recovery path carries no
creator-flagged participant; every atomic server event keeps a stored
creator-free session creator-free (or deletes it); consequently every
`create_session` naming a creator-free session — from any caller,
including the user who originally created it — is answered with
`Session already exists` and leaves the state unchanged. -/
theorem recovered_session_no_creator :
    (∀ (st : ServerState) (wsId : Nat) (openC : Nat → Bool)
      (sid uname t : String) (now : Nat),
      st.sessions sid = none →
      ∃ session',
        (handleJoinSession st wsId openC sid uname (some t) now).1.sessions sid =
          some session' ∧ noCreator session') ∧
    (∀ (st st' : ServerState) (sid : String) (session : Session),
      Step st st' → st.sessions sid = some session → noCreator session →
      st'.sessions sid = none ∨
      ∃ session', st'.sessions sid = some session' ∧ noCreator session') ∧
    (∀ (st : ServerState) (wsId : Nat) (sid t uname : String) (now : Nat)
      (session : Session),
      st.sessions sid = some session → noCreator session →
      handleCreateSession st wsId sid t uname now =
        (st, [(wsId, OutMsg.error "Session already exists")])) := by
  refine ⟨?_, ?_, ?_⟩
  · intro st wsId openC sid uname t now hm
    refine ⟨⟨sid, t, now, [⟨uname, wsId, false⟩]⟩, ?_, ?_⟩
    · simp [handleJoinSession, hm, joinCore, joinFinish, setSession_self]
    · intro p hp
      rw [List.mem_singleton.mp hp]
  · intro st st' sid session hstep hm hnc
    cases hstep with
    | frame wsId openC fr now =>
      cases fr with
      | none => exact Or.inr ⟨session, hm, hnc⟩
      | some m =>
        cases m with
        | createSession sid' t u => exact Or.inr (noCreator_create hm hnc)
        | joinSession sid' u t => exact Or.inr (noCreator_join hm hnc)
        | relayMessage mt c => exact Or.inr ⟨session, hm, hnc⟩
        | ping => exact Or.inr ⟨session, hm, hnc⟩
        | unknown t2 => exact Or.inr ⟨session, hm, hnc⟩
    | close wsId openC => exact noCreator_close hm hnc
    | sweep now =>
      by_cases ht : now - session.createdAt > sessionTTL
      · left
        show sweepSessions st.sessions now sid = none
        simp only [sweepSessions, hm]
        rw [if_pos ht]
      · right
        refine ⟨session, ?_, hnc⟩
        show sweepSessions st.sessions now sid = some session
        simp only [sweepSessions, hm]
        rw [if_neg ht]
    | accept wsId => exact Or.inr ⟨session, hm, hnc⟩
  · intro st wsId sid t uname now session hm hnc
    have ha : session.participants.any
        (fun p => p.isCreator && p.userName == uname) = false := by
      rw [List.any_eq_false]
      intro p hp
      simp [hnc p hp]
    simp only [handleCreateSession, hm, ha, Bool.false_eq_true, if_neg,
      not_false_eq_true]

/-- Witness for the recovered-session claim: recovery from the initial
state, a sweep step over the recovered state, and a rejected re-create by
the original creator name. -/
theorem recovered_session_no_creator_witness :
    (∃ session',
      (handleJoinSession initialState 2 allOpen "s1" "Bob" (some "T") 0).1.sessions
        "s1" = some session' ∧ noCreator session') ∧
    (({ recoveredState with
        sessions := sweepSessions recoveredState.sessions 0 } : ServerState).sessions
        "s1" = none ∨
      ∃ session',
        ({ recoveredState with
          sessions := sweepSessions recoveredState.sessions 0 } : ServerState).sessions
          "s1" = some session' ∧ noCreator session') ∧
    handleCreateSession recoveredState 9 "s1" "T" "Bob" 99 =
      (recoveredState, [(9, OutMsg.error "Session already exists")]) := by
  have hnc : noCreator recoveredSession := by
    intro p hp
    rw [List.mem_singleton.mp hp]
    rfl
  refine ⟨?_, ?_, ?_⟩
  · exact recovered_session_no_creator.1 initialState 2 allOpen "s1" "Bob" "T" 0 rfl
  · exact recovered_session_no_creator.2.1 recoveredState _ "s1" recoveredSession
      (Step.sweep recoveredState 0) rfl hnc
  · exact recovered_session_no_creator.2.2 recoveredState 9 "s1" "T" "Bob" 99
      recoveredSession rfl hnc
